import Mathlib

/-!
Shallow embedding of deno_core's module map (src/core/modules/map.rs):
the module registry, alias resolution, ES/JSON module registration, the
snapshot codec, dynamic-import dispatch and the engine resolution callback.
External collaborators (the v8 engine, the module loader, assertion
parsing helpers) are modelled as explicit inputs, as the spec treats them
as out of scope.
-/

namespace DenoCore

/-- AssertedModuleType (map.rs line 32, super::AssertedModuleType): the
closed set of module kinds derived from import assertions. -/
inductive AssertedModuleType
  | javaScriptOrWasm
  | json
deriving DecidableEq

/-- ModuleType of a compiled module (crate::modules::ModuleType). -/
inductive ModuleType
  | javaScript
  | json
deriving DecidableEq

/-- Modelled from the spec: the From conversion of a stored ModuleType into
the AssertedModuleType partition it belongs to (crate::modules, not under
src/): a JavaScript module belongs to the JavaScriptOrWasm partition and a
Json module to the Json partition. -/
def ModuleType.toAsserted : ModuleType → AssertedModuleType
  | .javaScript => .javaScriptOrWasm
  | .json => .json

/-- An opaque compiled-module handle (v8::Global of v8::Module). Synthetic
modules record the name and export list they were created with
(v8::Module::create_synthetic_module); host-supplied handles are opaque. -/
inductive Handle
  | external_ (n : Nat)
  | synthetic (name : String) (exports : List String)
deriving DecidableEq

/-- SymbolicModule (map.rs lines 47-54): an alias to another name, or a
concrete module id. -/
inductive SymbolicModule
  | alias (target : String)
  | mod (id : Nat)
deriving DecidableEq

/-- ModuleRequest (crate::modules::ModuleRequest): one static-import edge,
carrying the resolved specifier and the asserted type. -/
structure ModuleRequest where
  specifier : String
  asserted_module_type : AssertedModuleType
deriving DecidableEq

/-- ModuleInfo (crate::modules::ModuleInfo): per-module metadata. -/
structure ModuleInfo where
  id : Nat
  main : Bool
  name : String
  requests : List ModuleRequest
  module_type : ModuleType
deriving DecidableEq

/-- A JSON value as produced by the engine's JSON parser. Numbers are
modelled as rationals. -/
inductive JsonValue
  | null
  | bool (b : Bool)
  | num (q : ℚ)
  | str (s : String)
  | arr (elems : List JsonValue)
  | obj (members : List (String × JsonValue))

/-- The three shapes of future pushed onto preparing_dynamic_imports by
load_dynamic_import (map.rs lines 731-744): an immediately-ready success
(no prepare step, no fetch), a future that will run the load's prepare
step, or an immediately-ready resolution failure. -/
inductive PreparedDynFut
  | immediateOk (load_id : Int)
  | prepareThenLoad (load_id : Int) (specifier : String) (referrer : String)
      (asserted_module_type : AssertedModuleType)
  | immediateErr (load_id : Int) (e : String)
deriving DecidableEq

/-- ResolutionKind (crate::modules::ResolutionKind). -/
inductive ResolutionKind
  | staticImport
  | dynamicImport
  | mainModule
deriving DecidableEq

/-- The loader's resolve hook (ModuleLoader::resolve), an external
collaborator: specifier, referrer and kind to a canonical name or an
error (anyhow::Error modelled as a string). -/
def LoaderResolve := String → String → ResolutionKind → Except String String

/-- ModuleError (crate::modules::ModuleError): an engine exception
(v8 exception values modelled as their diagnostic string) or any other
error. -/
inductive ModuleError
  | exception (e : String)
  | other (e : String)
deriving DecidableEq

/-- ModuleMap (map.rs lines 57-77). The loader is passed explicitly to the
operations that use it rather than stored, since it is an external
collaborator; v8 promise resolvers are opaque naturals. -/
structure ModuleMap where
  handles : List Handle
  info : List ModuleInfo
  by_name_js : List (String × SymbolicModule)
  by_name_json : List (String × SymbolicModule)
  next_load_id : Int
  dynamic_import_map : List (Int × Nat)
  preparing_dynamic_imports : List PreparedDynFut
  pending_dynamic_imports : List Int
  json_value_store : List (Handle × JsonValue)

/-- HashMap lookup over the association-list model of a by-name map. -/
def lookupByName : List (String × SymbolicModule) → String → Option SymbolicModule
  | [], _ => none
  | (k, v) :: rest, name => if k = name then some v else lookupByName rest name

/-- HashMap::insert over the association-list model: replaces the value of
an existing key in place, otherwise appends the new binding. -/
def insertByName : List (String × SymbolicModule) → String → SymbolicModule →
    List (String × SymbolicModule)
  | [], name, v => [(name, v)]
  | (k, v') :: rest, name, v =>
      if k = name then (name, v) :: rest else (k, v') :: insertByName rest name v

/-- The association-list model of a HashMap has pairwise distinct keys. -/
def keysNodup (l : List (String × SymbolicModule)) : Prop :=
  (l.map Prod.fst).Nodup

instance (l : List (String × SymbolicModule)) : Decidable (keysNodup l) := by
  unfold keysNodup; infer_instance

/-- ModuleMap::by_name (map.rs lines 625-633). -/
def ModuleMap.by_name (m : ModuleMap) : AssertedModuleType → List (String × SymbolicModule)
  | .json => m.by_name_json
  | .javaScriptOrWasm => m.by_name_js

/-- ModuleMap::by_name_mut (map.rs lines 635-643), as a functional field
update of the selected partition. -/
def ModuleMap.set_by_name (m : ModuleMap) (t : AssertedModuleType)
    (v : List (String × SymbolicModule)) : ModuleMap :=
  match t with
  | .json => { m with by_name_json := v }
  | .javaScriptOrWasm => { m with by_name_js := v }

/-- ModuleMap::new (map.rs lines 373-386); the loader is external so the
fresh state is a constant. -/
def ModuleMap.new : ModuleMap :=
  { handles := []
  , info := []
  , by_name_js := []
  , by_name_json := []
  , next_load_id := 1
  , dynamic_import_map := []
  , preparing_dynamic_imports := []
  , pending_dynamic_imports := []
  , json_value_store := [] }

/-- The loop body of ModuleMap::get_id (map.rs lines 390-411), with
explicit fuel: the source loop is unbounded and diverges on an alias
cycle; every terminating execution visits pairwise distinct alias keys, so
it performs at most (number of entries) + 1 lookups, and the wrapper below
passes exactly that much fuel. Exhausted fuel (only reachable on a cycle,
where the source diverges) yields none. -/
def getIdFuel (map : List (String × SymbolicModule)) : Nat → String → Option Nat
  | 0, _ => none
  | Nat.succ fuel, name =>
    match lookupByName map name with
    | none => none
    | some (SymbolicModule.mod id) => some id
    | some (SymbolicModule.alias target) => getIdFuel map fuel target

/-- ModuleMap::get_id (map.rs lines 390-411): follow the alias chain under
the given asserted type until a concrete id is found or a key is absent. -/
def ModuleMap.get_id (m : ModuleMap) (name : String)
    (asserted_module_type : AssertedModuleType) : Option Nat :=
  getIdFuel (m.by_name asserted_module_type) ((m.by_name asserted_module_type).length + 1) name

/-- ModuleMap::create_module_info (map.rs lines 580-603): assign the next
dense id, insert the concrete by-name entry into the partition selected by
the module's own type, and push the handle and info. -/
def ModuleMap.create_module_info (m : ModuleMap) (name : String)
    (module_type : ModuleType) (handle : Handle) (main : Bool)
    (requests : List ModuleRequest) : Nat × ModuleMap :=
  let id := m.handles.length
  let m1 := m.set_by_name module_type.toAsserted
    (insertByName (m.by_name module_type.toAsserted) name (SymbolicModule.mod id))
  let m2 := { m1 with
    handles := m1.handles ++ [handle]
    info := m1.info ++ [{ id := id, main := main, name := name
                        , requests := requests, module_type := module_type }] }
  (id, m2)

/-- ModuleMap::clear (map.rs lines 557-559): reinitialize as freshly
constructed (the loader reference, being external, is unchanged). -/
def ModuleMap.clear (_m : ModuleMap) : ModuleMap := ModuleMap.new

/-- ModuleMap::inject_handle (map.rs lines 571-578). -/
def ModuleMap.inject_handle (m : ModuleMap) (name : String)
    (module_type : ModuleType) (handle : Handle) : ModuleMap :=
  (m.create_module_info name module_type handle false []).2

/-- ModuleMap::alias (map.rs lines 645-655); the source debug-asserts
name is not target but performs the insertion unconditionally. -/
def ModuleMap.alias (m : ModuleMap) (name : String)
    (asserted_module_type : AssertedModuleType) (target : String) : ModuleMap :=
  m.set_by_name asserted_module_type
    (insertByName (m.by_name asserted_module_type) name (SymbolicModule.alias target))

/-- ModuleMap::get_handle (map.rs lines 667-672). -/
def ModuleMap.get_handle (m : ModuleMap) (id : Nat) : Option Handle :=
  m.handles[id]?

/-- ModuleMap::get_info_by_id (map.rs lines 685-687). -/
def ModuleMap.get_info_by_id (m : ModuleMap) (id : Nat) : Option ModuleInfo :=
  m.info[id]?

/-- ModuleMap::get_requested_modules (map.rs lines 605-610). -/
def ModuleMap.get_requested_modules (m : ModuleMap) (id : Nat) : Option (List ModuleRequest) :=
  (m.info[id]?).map ModuleInfo.requests

/-- ModuleMap::is_registered (map.rs lines 612-623): resolve through
get_id and compare the asserted type with the stored module type. The
source unwraps get_info_by_id; an out-of-range id (impossible in states
the registry itself builds, where every concrete entry points into info)
would panic there, and is modelled as false — no theorem below exercises
that branch. -/
def ModuleMap.is_registered (m : ModuleMap) (specifier : String)
    (asserted_module_type : AssertedModuleType) : Bool :=
  match m.get_id specifier asserted_module_type with
  | some id =>
    match m.get_info_by_id id with
    | some info => decide (asserted_module_type = info.module_type.toAsserted)
    | none => false
  | none => false

/-- ModuleMap::is_alias (map.rs lines 657-665). -/
def ModuleMap.is_alias (m : ModuleMap) (name : String)
    (asserted_module_type : AssertedModuleType) : Bool :=
  match lookupByName (m.by_name asserted_module_type) name with
  | some (SymbolicModule.alias _) => true
  | _ => false

/-- Escape of one character under Rust's Debug formatting of a string:
quote and backslash are escaped (further escapes exist for control and
non-printable characters, which no theorem below exercises). -/
def rustDebugEscape (c : Char) : String :=
  if c = '\"' then "\\\"" else if c = '\\' then "\\\\" else String.singleton c

/-- Rust's Debug rendering of a string slice, as used by the duplicate-main
error message's format string in map.rs lines 538-541: the text wrapped in
double quotes with quote and backslash escaped. -/
def rustDebug (s : String) : String :=
  "\"" ++ String.join (s.data.map rustDebugEscape) ++ "\""

/-- One static module request of a freshly compiled module, as handed back
by the engine and the assertion helpers (map.rs lines 487-506). The raw
specifier text comes from the engine; validation_exception models the
exception validate_import_assertions may throw (crate::modules helper, an
external collaborator); asserted_module_type models the result of
get_asserted_module_type_from_assertions on the parsed assertion map. -/
structure RawModuleRequest where
  import_specifier : String
  validation_exception : Option String
  asserted_module_type : AssertedModuleType
deriving DecidableEq

/-- Result of the engine's compile step for an ES module
(v8::script_compiler::compile_module, an external collaborator): an
exception, or a compiled handle together with its static requests. -/
inductive CompileResult
  | exception (e : String)
  | ok (handle : Handle) (module_requests : List RawModuleRequest)
deriving DecidableEq

/-- The per-request loop of ModuleMap::new_es_module (map.rs lines
485-532): for each raw request, a validation exception aborts with that
exception; then the loader resolves the raw specifier against the
importing module's name (dynamic-import resolution kind when the load is a
dynamic import), a resolution error aborts; otherwise the resolved
specifier and the asserted type form the recorded ModuleRequest. -/
def processRequests (lr : LoaderResolve) (name : String) (is_dynamic_import : Bool) :
    List RawModuleRequest → Except ModuleError (List ModuleRequest)
  | [] => Except.ok []
  | r :: rest =>
    match r.validation_exception with
    | some e => Except.error (ModuleError.exception e)
    | none =>
      match lr r.import_specifier name
          (if is_dynamic_import then ResolutionKind.dynamicImport
           else ResolutionKind.staticImport) with
      | Except.error e => Except.error (ModuleError.other e)
      | Except.ok module_specifier =>
        match processRequests lr name is_dynamic_import rest with
        | Except.error e => Except.error e
        | Except.ok reqs =>
          Except.ok ({ specifier := module_specifier
                     , asserted_module_type := r.asserted_module_type } :: reqs)

/-- The duplicate-main error message (map.rs lines 538-541). -/
def duplicateMainMessage (attempted existing : String) : String :=
  "Trying to create \"main\" module (" ++ rustDebug attempted ++
    "), when one already exists (" ++ rustDebug existing ++ ")"

/-- ModuleMap::new_es_module (map.rs lines 458-555). The engine's compile
step is an explicit input; on any error the map is returned unchanged, as
the source mutates self only in the final create_module_info call. -/
def ModuleMap.new_es_module (m : ModuleMap) (lr : LoaderResolve) (main : Bool)
    (name : String) (compiled : CompileResult) (is_dynamic_import : Bool) :
    Except ModuleError Nat × ModuleMap :=
  match compiled with
  | CompileResult.exception e => (Except.error (ModuleError.exception e), m)
  | CompileResult.ok handle module_requests =>
    match processRequests lr name is_dynamic_import module_requests with
    | Except.error e => (Except.error e, m)
    | Except.ok requests =>
      match main, m.info.find? (fun i => i.main) with
      | true, some main_module =>
        (Except.error (ModuleError.other (duplicateMainMessage name main_module.name)), m)
      | _, _ =>
        let (id, m2) := m.create_module_info name ModuleType.javaScript handle main requests
        (Except.ok id, m2)

/-- BOM_CHAR (map.rs line 34). -/
def BOM_CHAR : List UInt8 := [0xef, 0xbb, 0xbf]

/-- strip_bom (map.rs lines 37-43): drop a leading byte-order mark. -/
def strip_bom (source_code : List UInt8) : List UInt8 :=
  if BOM_CHAR.isPrefixOf source_code then source_code.drop BOM_CHAR.length
  else source_code

/-- Standard UTF-8 encoding of one character, the byte representation
Rust's str::as_bytes exposes. -/
def utf8EncodeChar (c : Char) : List UInt8 :=
  let n := c.toNat
  if n < 0x80 then [UInt8.ofNat n]
  else if n < 0x800 then
    [UInt8.ofNat (0xc0 + n / 0x40), UInt8.ofNat (0x80 + n % 0x40)]
  else if n < 0x10000 then
    [UInt8.ofNat (0xe0 + n / 0x1000), UInt8.ofNat (0x80 + (n / 0x40) % 0x40),
     UInt8.ofNat (0x80 + n % 0x40)]
  else
    [UInt8.ofNat (0xf0 + n / 0x40000), UInt8.ofNat (0x80 + (n / 0x1000) % 0x40),
     UInt8.ofNat (0x80 + (n / 0x40) % 0x40), UInt8.ofNat (0x80 + n % 0x40)]

/-- UTF-8 bytes of a Rust string (str::as_bytes). -/
def strUtf8 (s : String) : List UInt8 := (s.data.map utf8EncodeChar).flatten

/-- UTF-8 continuation byte test. -/
def isCont (b : UInt8) : Bool := 0x80 ≤ b && b < 0xc0

/-- The Unicode replacement character emitted for malformed input. -/
def replacementChar : Char := Char.ofNat 0xfffd

/-- Lossy UTF-8 decoding, one step per emitted character; fuel is the
input length, which bounds the number of characters. Models the engine
accepting UTF-8 bytes in v8 String::new_from_utf8 (map.rs lines 420-425);
invalid sequences become replacement characters. Only valid ASCII inputs
are exercised by the theorems below. -/
def utf8DecodeAux : Nat → List UInt8 → List Char
  | 0, _ => []
  | _, [] => []
  | Nat.succ fuel, b :: rest =>
    if b < 0x80 then Char.ofNat b.toNat :: utf8DecodeAux fuel rest
    else if 0xc2 ≤ b ∧ b < 0xe0 then
      match rest with
      | b1 :: rest1 =>
        if isCont b1 then
          Char.ofNat ((b.toNat - 0xc0) * 0x40 + (b1.toNat - 0x80)) ::
            utf8DecodeAux fuel rest1
        else replacementChar :: utf8DecodeAux fuel rest
      | [] => [replacementChar]
    else if 0xe0 ≤ b ∧ b < 0xf0 then
      match rest with
      | b1 :: b2 :: rest2 =>
        if isCont b1 && isCont b2 then
          Char.ofNat ((b.toNat - 0xe0) * 0x1000 + (b1.toNat - 0x80) * 0x40 +
              (b2.toNat - 0x80)) :: utf8DecodeAux fuel rest2
        else replacementChar :: utf8DecodeAux fuel rest
      | _ => [replacementChar]
    else if 0xf0 ≤ b ∧ b < 0xf5 then
      match rest with
      | b1 :: b2 :: b3 :: rest3 =>
        if isCont b1 && isCont b2 && isCont b3 then
          Char.ofNat ((b.toNat - 0xf0) * 0x40000 + (b1.toNat - 0x80) * 0x1000 +
              (b2.toNat - 0x80) * 0x40 + (b3.toNat - 0x80)) ::
            utf8DecodeAux fuel rest3
        else replacementChar :: utf8DecodeAux fuel rest
      | _ => [replacementChar]
    else replacementChar :: utf8DecodeAux fuel rest

/-- Lossy UTF-8 decoding of a byte list into a string. -/
def utf8DecodeLossy (bytes : List UInt8) : String :=
  String.mk (utf8DecodeAux bytes.length bytes)

/-- Whitespace accepted between JSON tokens. -/
def jsonWs (c : Char) : Bool := c = ' ' || c = '\t' || c = '\n' || c = '\r'

/-- Skip whitespace, tracking the position for diagnostics. -/
def skipWs : List Char → Nat → List Char × Nat
  | [], pos => ([], pos)
  | c :: rest, pos =>
    if jsonWs c then skipWs rest (pos + 1) else (c :: rest, pos)

/-- Value of a hexadecimal digit. -/
def hexVal (c : Char) : Option Nat :=
  if '0' ≤ c ∧ c ≤ '9' then some (c.toNat - '0'.toNat)
  else if 'a' ≤ c ∧ c ≤ 'f' then some (c.toNat - 'a'.toNat + 10)
  else if 'A' ≤ c ∧ c ≤ 'F' then some (c.toNat - 'A'.toNat + 10)
  else none

/-- Value of a decimal digit. -/
def digitVal (c : Char) : Option Nat :=
  if '0' ≤ c ∧ c ≤ '9' then some (c.toNat - '0'.toNat) else none

/-- Longest digit run at the front of the input. -/
def takeDigits : List Char → List Nat × List Char
  | [] => ([], [])
  | c :: rest =>
    match digitVal c with
    | some d => let (ds, rest') := takeDigits rest; (d :: ds, rest')
    | none => ([], c :: rest)

/-- Numeric value of a digit run. -/
def digitsToNat (ds : List Nat) : Nat := ds.foldl (fun acc d => acc * 10 + d) 0

/-- Body of a JSON string literal after the opening quote, with the usual
escapes; fuel is the remaining input length, which bounds the steps. -/
def parseStringAux : Nat → List Char → Nat → Except String (List Char × List Char × Nat)
  | 0, _, pos => Except.error ("Unterminated string in JSON at position " ++ toString pos)
  | Nat.succ fuel, chars, pos =>
    match chars with
    | [] => Except.error ("Unterminated string in JSON at position " ++ toString pos)
    | c :: rest =>
      if c = '\"' then Except.ok ([], rest, pos + 1)
      else if c = '\\' then
        match rest with
        | [] => Except.error ("Unterminated string in JSON at position " ++ toString (pos + 1))
        | e :: rest2 =>
          let esc : Option (Char × List Char × Nat) :=
            if e = '\"' then some ('\"', rest2, pos + 2)
            else if e = '\\' then some ('\\', rest2, pos + 2)
            else if e = '/' then some ('/', rest2, pos + 2)
            else if e = 'n' then some ('\n', rest2, pos + 2)
            else if e = 't' then some ('\t', rest2, pos + 2)
            else if e = 'r' then some ('\r', rest2, pos + 2)
            else if e = 'b' then some (Char.ofNat 8, rest2, pos + 2)
            else if e = 'f' then some (Char.ofNat 12, rest2, pos + 2)
            else if e = 'u' then
              match rest2 with
              | h1 :: h2 :: h3 :: h4 :: rest3 =>
                match hexVal h1, hexVal h2, hexVal h3, hexVal h4 with
                | some a, some b, some c3, some d =>
                  some (Char.ofNat (((a * 16 + b) * 16 + c3) * 16 + d), rest3, pos + 6)
                | _, _, _, _ => none
              | _ => none
            else none
          match esc with
          | some (ch, rest3, pos3) =>
            match parseStringAux fuel rest3 pos3 with
            | Except.error msg => Except.error msg
            | Except.ok (cs, rest4, pos4) => Except.ok (ch :: cs, rest4, pos4)
          | none =>
            Except.error ("Bad escape in JSON at position " ++ toString (pos + 1))
      else
        match parseStringAux fuel rest (pos + 1) with
        | Except.error msg => Except.error msg
        | Except.ok (cs, rest4, pos4) => Except.ok (c :: cs, rest4, pos4)

/-- A JSON string literal after the opening quote. -/
def parseStringLit (chars : List Char) (pos : Nat) :
    Except String (String × List Char × Nat) :=
  match parseStringAux (chars.length + 1) chars pos with
  | Except.error msg => Except.error msg
  | Except.ok (cs, rest, pos') => Except.ok (String.mk cs, rest, pos')

/-- Numeric value of a parsed JSON number from its parts: sign, integer
digits, fraction digits, and exponent sign and digits. -/
def jsonNumValue (neg : Bool) (ds fds : List Nat) (e : Bool × List Nat) : ℚ :=
  let mag : ℚ := (digitsToNat ds : ℚ) + (digitsToNat fds : ℚ) / (10 : ℚ) ^ fds.length
  let signed : ℚ := if neg then -mag else mag
  let expv : Int := if e.1 then -(digitsToNat e.2 : Int) else (digitsToNat e.2 : Int)
  signed * (10 : ℚ) ^ expv

/-- A JSON number: optional minus, digits, optional fraction, optional
exponent; evaluated as a rational. -/
def parseNumber (chars : List Char) (pos : Nat) :
    Except String (ℚ × List Char × Nat) :=
  let s0 : Bool × List Char × Nat :=
    match chars with
    | '-' :: rest => (true, rest, pos + 1)
    | _ => (false, chars, pos)
  let (neg, chars1, pos1) := s0
  let (ds, chars2) := takeDigits chars1
  if ds.isEmpty then
    Except.error ("Unexpected token in JSON at position " ++ toString pos)
  else
    let pos2 := pos1 + ds.length
    let sFrac : Option (List Nat) × List Char × Nat :=
      match chars2 with
      | '.' :: rest => let (fs, r) := takeDigits rest; (some fs, r, pos2 + 1 + fs.length)
      | _ => (none, chars2, pos2)
    let (fds?, chars3, pos3) := sFrac
    if fds? = some [] then
      Except.error ("Expected digits after decimal point in JSON at position " ++ toString pos3)
    else
      let fds := fds?.getD []
      let sExp : Option (Bool × List Nat) × List Char × Nat :=
        match chars3 with
        | c :: rest =>
          if c = 'e' ∨ c = 'E' then
            match rest with
            | '-' :: rest2 => let (es, r) := takeDigits rest2; (some (true, es), r, pos3 + 2 + es.length)
            | '+' :: rest2 => let (es, r) := takeDigits rest2; (some (false, es), r, pos3 + 2 + es.length)
            | _ => let (es, r) := takeDigits rest; (some (false, es), r, pos3 + 1 + es.length)
          else (none, c :: rest, pos3)
        | [] => (none, [], pos3)
      let (eds?, chars5, pos5) := sExp
      match eds? with
      | some (_, []) =>
        Except.error ("Expected digits in exponent in JSON at position " ++ toString pos5)
      | _ =>
        Except.ok (jsonNumValue neg ds fds (eds?.getD (false, [])), chars5, pos5)

mutual

/-- Modelled from the spec: v8::json::parse, the engine's JSON text
parser used by new_json_module (map.rs line 429) — an external
collaborator per spec sections 2 and 4.5 ("parses source as JSON text;
parse failure yields a compile error carrying the parser's diagnostic").
Fuel bounds combined nesting depth and member count; the top-level entry
point passes more fuel than any input of its length can consume. -/
def parseValue : Nat → List Char → Nat → Except String (JsonValue × List Char × Nat)
  | 0, _, pos => Except.error ("JSON input too complex at position " ++ toString pos)
  | Nat.succ fuel, chars0, pos0 =>
    let (chars, pos) := skipWs chars0 pos0
    match chars with
    | [] => Except.error ("Unexpected end of JSON input at position " ++ toString pos)
    | c :: rest =>
      if c = '\x7b' then
        let (chars1, pos1) := skipWs rest (pos + 1)
        match chars1 with
        | '\x7d' :: rest1 => Except.ok (JsonValue.obj [], rest1, pos1 + 1)
        | _ => parseMembers fuel chars1 pos1 []
      else if c = '[' then
        let (chars1, pos1) := skipWs rest (pos + 1)
        match chars1 with
        | ']' :: rest1 => Except.ok (JsonValue.arr [], rest1, pos1 + 1)
        | _ => parseElems fuel chars1 pos1 []
      else if c = '\"' then
        match parseStringLit rest (pos + 1) with
        | Except.error msg => Except.error msg
        | Except.ok (s, rest1, pos1) => Except.ok (JsonValue.str s, rest1, pos1)
      else if c = 't' then
        match rest with
        | 'r' :: 'u' :: 'e' :: rest1 => Except.ok (JsonValue.bool true, rest1, pos + 4)
        | _ => Except.error ("Unexpected token t in JSON at position " ++ toString pos)
      else if c = 'f' then
        match rest with
        | 'a' :: 'l' :: 's' :: 'e' :: rest1 => Except.ok (JsonValue.bool false, rest1, pos + 5)
        | _ => Except.error ("Unexpected token f in JSON at position " ++ toString pos)
      else if c = 'n' then
        match rest with
        | 'u' :: 'l' :: 'l' :: rest1 => Except.ok (JsonValue.null, rest1, pos + 4)
        | _ => Except.error ("Unexpected token n in JSON at position " ++ toString pos)
      else if c = '-' ∨ (digitVal c).isSome then
        match parseNumber (c :: rest) pos with
        | Except.error msg => Except.error msg
        | Except.ok (q, rest1, pos1) => Except.ok (JsonValue.num q, rest1, pos1)
      else
        Except.error ("Unexpected token " ++ String.singleton c ++
          " in JSON at position " ++ toString pos)

/-- Object members, positioned at a key; accumulates parsed members. -/
def parseMembers : Nat → List Char → Nat → List (String × JsonValue) →
    Except String (JsonValue × List Char × Nat)
  | 0, _, pos, _ => Except.error ("JSON input too complex at position " ++ toString pos)
  | Nat.succ fuel, chars, pos, acc =>
    match chars with
    | '\"' :: rest =>
      match parseStringLit rest (pos + 1) with
      | Except.error msg => Except.error msg
      | Except.ok (k, chars1, pos1) =>
        let (chars2, pos2) := skipWs chars1 pos1
        match chars2 with
        | ':' :: rest2 =>
          match parseValue fuel rest2 (pos2 + 1) with
          | Except.error msg => Except.error msg
          | Except.ok (v, chars3, pos3) =>
            let (chars4, pos4) := skipWs chars3 pos3
            match chars4 with
            | ',' :: rest4 =>
              let (chars5, pos5) := skipWs rest4 (pos4 + 1)
              parseMembers fuel chars5 pos5 (acc ++ [(k, v)])
            | '\x7d' :: rest4 => Except.ok (JsonValue.obj (acc ++ [(k, v)]), rest4, pos4 + 1)
            | _ => Except.error ("Expected comma or end of object in JSON at position " ++ toString pos4)
        | _ => Except.error ("Expected colon after object key in JSON at position " ++ toString pos2)
    | _ => Except.error ("Expected string key in JSON at position " ++ toString pos)

/-- Array elements, positioned at an element; accumulates parsed values. -/
def parseElems : Nat → List Char → Nat → List JsonValue →
    Except String (JsonValue × List Char × Nat)
  | 0, _, pos, _ => Except.error ("JSON input too complex at position " ++ toString pos)
  | Nat.succ fuel, chars, pos, acc =>
    match parseValue fuel chars pos with
    | Except.error msg => Except.error msg
    | Except.ok (v, chars1, pos1) =>
      let (chars2, pos2) := skipWs chars1 pos1
      match chars2 with
      | ',' :: rest2 => parseElems fuel rest2 (pos2 + 1) (acc ++ [v])
      | ']' :: rest2 => Except.ok (JsonValue.arr (acc ++ [v]), rest2, pos2 + 1)
      | _ => Except.error ("Expected comma or end of array in JSON at position " ++ toString pos2)

end

/-- Modelled from the spec: the engine's whole-input JSON parse
(v8::json::parse): a value followed only by whitespace. -/
def jsonParse (text : String) : Except String JsonValue :=
  let chars := text.data
  match parseValue (2 * chars.length + 2) chars 0 with
  | Except.error msg => Except.error msg
  | Except.ok (v, rest, pos) =>
    let (rest1, pos1) := skipWs rest pos
    match rest1 with
    | [] => Except.ok v
    | c :: _ =>
      Except.error ("Unexpected token " ++ String.singleton c ++
        " after JSON at position " ++ toString pos1)

/-- HashMap::insert on the json_value_store (map.rs line 449). -/
def insertStore : List (Handle × JsonValue) → Handle → JsonValue →
    List (Handle × JsonValue)
  | [], h, v => [(h, v)]
  | (k, v') :: rest, h, v =>
    if k = h then (h, v) :: rest else (k, v') :: insertStore rest h v

/-- ModuleMap::new_json_module (map.rs lines 413-455): strip the BOM, hand
the bytes to the engine as a string, parse as JSON; a parse failure
returns the caught exception; on success create a synthetic module with
the single export default, store the parsed value under the handle, and
register a Json module with main false and no requests. -/
def ModuleMap.new_json_module (m : ModuleMap) (name : String) (source : List UInt8) :
    Except ModuleError Nat × ModuleMap :=
  let text := utf8DecodeLossy (strip_bom source)
  match jsonParse text with
  | Except.error e => (Except.error (ModuleError.exception e), m)
  | Except.ok parsed_json =>
    let handle := Handle.synthetic name ["default"]
    let m1 := { m with json_value_store := insertStore m.json_value_store handle parsed_json }
    let (id, m2) := m1.create_module_info name ModuleType.json handle false []
    (Except.ok id, m2)

/-- The i32 cast applied to a usize module id when serializing (map.rs
lines 134 and 194): truncate to the low 32 bits, interpreted signed. -/
def toI32 (n : Nat) : Int :=
  let r := (n : Int) % 4294967296
  if r < 2147483648 then r else r - 4294967296

/-- The usize cast applied to an i64 integer value when decoding a module
id (map.rs line 249): two's-complement wrap into 64 bits. -/
def i64ToUsize (i : Int) : Nat := (i % 18446744073709551616).toNat

/-- Discriminant of AssertedModuleType under the i32 cast in serialize
(map.rs lines 155 and 180): the enum declaration order gives
JavaScriptOrWasm 0 and Json 1, matching the decoder arms. -/
def amtToInt : AssertedModuleType → Int
  | .javaScriptOrWasm => 0
  | .json => 1

/-- Discriminant of ModuleType under the i32 cast in serialize (map.rs
line 164): JavaScript 0, Json 1, matching the decoder arms. -/
def mtToInt : ModuleType → Int
  | .javaScript => 0
  | .json => 1

/-- Decoder match on an asserted-type discriminant (map.rs lines 281-285
and 336-346); any other value hits unreachable, modelled as none. -/
def intToAmt (n : Int) : Option AssertedModuleType :=
  if n = 0 then some AssertedModuleType.javaScriptOrWasm
  else if n = 1 then some AssertedModuleType.json
  else none

/-- Decoder match on a module-type discriminant (map.rs lines 298-302);
any other value hits unreachable, modelled as none. -/
def intToMt (n : Int) : Option ModuleType :=
  if n = 0 then some ModuleType.javaScript
  else if n = 1 then some ModuleType.json
  else none

/-- The engine string produced by new_from_one_byte over a Rust string's
UTF-8 bytes (map.rs lines 146-151 and 185-190): each byte becomes one
Latin-1 code unit, so reading the string back yields the bytes
reinterpreted as characters. This is the identity exactly on ASCII. -/
def oneByteStr (s : String) : String :=
  String.mk ((strUtf8 s).map (fun b => Char.ofNat b.toNat))

/-- One serialized ModuleInfo (the five-slot inner array, map.rs lines
132-167): id as written through the i32 cast, main flag, name, request
list of (one-byte specifier, asserted-type discriminant) pairs, and the
module-type discriminant. -/
structure InfoPayload where
  id : Int
  main : Bool
  name : String
  requests : List (String × Int)
  module_type : Int
deriving DecidableEq

/-- A serialized SymbolicModule (map.rs lines 183-198): an alias is its
target written as a one-byte string, a concrete module its id integer;
the decoder distinguishes the two with is_number (map.rs line 349). -/
inductive SymPayload
  | aliasStr (s : String)
  | modId (i : Int)
deriving DecidableEq

/-- SnapshottedData (crate::runtime::SnapshottedData): the serialized
module map (next load id, info list, by-name list, in the three outer
array slots) together with the module handles. -/
structure SnapshottedData where
  next_load_id : Int
  info : List InfoPayload
  by_name : List (String × Int × SymPayload)
  module_handles : List Handle
deriving DecidableEq

/-- ModuleMap::collect_modules (map.rs lines 80-96): the entries of the
JavaScriptOrWasm partition then those of the Json partition, each tagged
with its type; HashMap iteration order is modelled by list order. -/
def ModuleMap.collect_modules (m : ModuleMap) :
    List (AssertedModuleType × String × SymbolicModule) :=
  (m.by_name_js.map fun p => (AssertedModuleType.javaScriptOrWasm, p.1, p.2)) ++
  (m.by_name_json.map fun p => (AssertedModuleType.json, p.1, p.2))

/-- One ModuleInfo serialized (map.rs lines 131-167): the id through the
i32 cast, the name as an exact string (FastString::v8), each request
specifier through new_from_one_byte over its UTF-8 bytes, and the type
discriminants through i32 casts. -/
def encodeModuleInfo (i : ModuleInfo) : InfoPayload :=
  { id := toI32 i.id
  , main := i.main
  , name := i.name
  , requests := i.requests.map fun r =>
      (oneByteStr r.specifier, amtToInt r.asserted_module_type)
  , module_type := mtToInt i.module_type }

/-- One SymbolicModule serialized (map.rs lines 183-198): an alias target
through new_from_one_byte over its UTF-8 bytes, a concrete id through the
i32 cast. -/
def encodeSymbolicModule : SymbolicModule → SymPayload
  | SymbolicModule.alias a => SymPayload.aliasStr (oneByteStr a)
  | SymbolicModule.mod id => SymPayload.modId (toI32 id)

/-- ModuleMap::serialize_for_snapshotting (map.rs lines 121-212). The
handle list is cloned alongside the serialized map data. -/
def ModuleMap.serialize_for_snapshotting (m : ModuleMap) : SnapshottedData :=
  { next_load_id := m.next_load_id
  , info := m.info.map encodeModuleInfo
  , by_name := m.collect_modules.map fun x =>
      (x.2.1, amtToInt x.1, encodeSymbolicModule x.2.2)
  , module_handles := m.handles }

/-- One request decoded (map.rs lines 270-290). -/
def decodeRequest (p : String × Int) : Option ModuleRequest :=
  (intToAmt p.2).map fun t => { specifier := p.1, asserted_module_type := t }

/-- One ModuleInfo decoded (map.rs lines 238-312); the id is read back
through the i64-value-to-usize cast. -/
def decodeInfo (p : InfoPayload) : Option ModuleInfo := do
  let requests ← p.requests.mapM decodeRequest
  let module_type ← intToMt p.module_type
  pure { id := i64ToUsize p.id, main := p.main, name := p.name
       , requests := requests, module_type := module_type }

/-- A SymbolicModule decoded (map.rs lines 348-362); a negative concrete
id fails the usize conversion (try_into unwrap), modelled as none. -/
def decodeSym : SymPayload → Option SymbolicModule
  | SymPayload.aliasStr a => some (SymbolicModule.alias a)
  | SymPayload.modId i =>
    if i < 0 then none else some (SymbolicModule.mod i.toNat)

/-- The body of the by-name repopulation loop (map.rs lines 327-367):
decode the asserted type and the symbolic module, then insert into the
selected partition. -/
def decodeByNameEntry (acc : ModuleMap) (p : String × Int × SymPayload) :
    Option ModuleMap := do
  let t ← intToAmt p.2.1
  let v ← decodeSym p.2.2
  pure (acc.set_by_name t (insertByName (acc.by_name t) p.1 v))

/-- ModuleMap::update_with_snapshotted_data (map.rs lines 214-371): set
the next load id, rebuild the info list, clear both by-name maps,
repopulate them from the payload entries in order, then attach the
handles. Unreachable arms and failing unwraps are modelled as none. -/
def ModuleMap.update_with_snapshotted_data (m : ModuleMap) (d : SnapshottedData) :
    Option ModuleMap := do
  let info ← d.info.mapM decodeInfo
  let m1 : ModuleMap :=
    { m with
      next_load_id := d.next_load_id
      info := info
      by_name_js := []
      by_name_json := [] }
  let m2 ← d.by_name.foldlM decodeByNameEntry m1
  pure { m2 with handles := d.module_handles }

/-- HashMap::insert on the dynamic_import_map (map.rs lines 723-726). -/
def insertDynMap : List (Int × Nat) → Int → Nat → List (Int × Nat)
  | [], k, v => [(k, v)]
  | (k', v') :: rest, k, v =>
    if k' = k then (k, v) :: rest else (k', v') :: insertDynMap rest k v

/-- Lookup on the dynamic_import_map model. -/
def lookupDynMap : List (Int × Nat) → Int → Option Nat
  | [], _ => none
  | (k', v) :: rest, k => if k' = k then some v else lookupDynMap rest k

/-- ModuleMap::load_dynamic_import (map.rs lines 710-749). The load id
allocation inside RecursiveModuleLoad::dynamic_import is modelled from
the spec (section 3: LoadId is a monotonically increasing counter;
section 4.3: start allocates a new LoadId), since
crate::modules::RecursiveModuleLoad is not under src/: the new load takes
the current next_load_id, which is incremented. The resolver handle is
recorded under the load id before the future is built; the future pushed
onto preparing_dynamic_imports is the immediate success when the loader
resolves the specifier and the target is already registered (no prepare
step, hence no fetch or compile), the prepare-then-load future otherwise,
and the immediate failure when resolution fails. -/
def ModuleMap.load_dynamic_import (m : ModuleMap) (lr : LoaderResolve)
    (specifier referrer : String) (asserted_module_type : AssertedModuleType)
    (resolver_handle : Nat) : ModuleMap :=
  let load_id := m.next_load_id
  let m1 := { m with next_load_id := m.next_load_id + 1 }
  let m2 := { m1 with
    dynamic_import_map := insertDynMap m1.dynamic_import_map load_id resolver_handle }
  let fut :=
    match lr specifier referrer ResolutionKind.dynamicImport with
    | Except.ok module_specifier =>
      if m2.is_registered module_specifier asserted_module_type then
        PreparedDynFut.immediateOk load_id
      else
        PreparedDynFut.prepareThenLoad load_id specifier referrer asserted_module_type
    | Except.error e => PreparedDynFut.immediateErr load_id e
  { m2 with preparing_dynamic_imports := m2.preparing_dynamic_imports ++ [fut] }

/-- ModuleMap::has_pending_dynamic_imports (map.rs lines 751-754). -/
def ModuleMap.has_pending_dynamic_imports (m : ModuleMap) : Bool :=
  !(m.preparing_dynamic_imports.isEmpty && m.pending_dynamic_imports.isEmpty)

/-- Lookup in an import-assertions map. -/
def lookupAssertions : List (String × String) → String → Option String
  | [], _ => none
  | (k, v) :: rest, key => if k = key then some v else lookupAssertions rest key

/-- Modelled from the spec: get_asserted_module_type_from_assertions
(crate::modules, not under src/) — the asserted type derived from the
assertion map (spec section 3: AssertedType is derived from
import-assertion syntax and partitions module identity): a type assertion
of json selects Json, anything else JavaScriptOrWasm. -/
def get_asserted_module_type_from_assertions
    (assertions : List (String × String)) : AssertedModuleType :=
  match lookupAssertions assertions "type" with
  | some v => if v = "json" then AssertedModuleType.json
              else AssertedModuleType.javaScriptOrWasm
  | none => AssertedModuleType.javaScriptOrWasm

/-- ModuleMap::resolve_callback (map.rs lines 757-779): re-resolve the
pair through the loader — a resolution failure hits the expect and
panics (modelled as the outer none) — then look the resolved specifier up
in the registry under the asserted type from the assertions: some (some
handle) when a registered handle exists, and some none — returned to the
engine, with no panic — when the registry has nothing. -/
def ModuleMap.resolve_callback (m : ModuleMap) (lr : LoaderResolve)
    (specifier referrer : String) (import_assertions : List (String × String)) :
    Option (Option Handle) :=
  match lr specifier referrer ResolutionKind.staticImport with
  | Except.error _ => none
  | Except.ok resolved_specifier =>
    let module_type := get_asserted_module_type_from_assertions import_assertions
    some (match m.get_id resolved_specifier module_type with
          | some id => m.get_handle id
          | none => none)

/-- Registry states reachable through the public operations, with
arbitrary external collaborator behaviour at every step (loader results,
engine compile results, sources, injected handles). -/
inductive Reachable : ModuleMap → Prop
  | init : Reachable ModuleMap.new
  | es (m : ModuleMap) (lr : LoaderResolve) (main : Bool) (name : String)
      (compiled : CompileResult) (is_dynamic_import : Bool) : Reachable m →
      Reachable (m.new_es_module lr main name compiled is_dynamic_import).2
  | jsonMod (m : ModuleMap) (name : String) (source : List UInt8) : Reachable m →
      Reachable (m.new_json_module name source).2
  | inject (m : ModuleMap) (name : String) (module_type : ModuleType)
      (handle : Handle) : Reachable m →
      Reachable (m.inject_handle name module_type handle)
  | aliasOp (m : ModuleMap) (name : String) (t : AssertedModuleType)
      (target : String) : Reachable m → Reachable (m.alias name t target)
  | clearOp (m : ModuleMap) : Reachable m → Reachable m.clear
  | dyn (m : ModuleMap) (lr : LoaderResolve) (specifier referrer : String)
      (t : AssertedModuleType) (rh : Nat) : Reachable m →
      Reachable (m.load_dynamic_import lr specifier referrer t rh)

/-- An explicit alias chain: walking the by-name entries from a name
through the successive targets in rest, ending at a concrete id
(res = some id) or at an absent key (res = none). -/
def follows (map : List (String × SymbolicModule)) :
    String → List String → Option Nat → Prop
  | name, [], res =>
      (lookupByName map name = none ∧ res = none) ∨
      (∃ id, lookupByName map name = some (SymbolicModule.mod id) ∧ res = some id)
  | name, t :: rest, res =>
      lookupByName map name = some (SymbolicModule.alias t) ∧ follows map t rest res

/-- A loader whose resolve returns the specifier unchanged. -/
def lrOk : LoaderResolve := fun s _r _k => Except.ok s

/-- A loader whose resolve always fails. -/
def lrErr : LoaderResolve := fun _s _r _k => Except.error "resolution failed"

/-- A registry built by the public operations whose js partition holds an
alias with a non-ASCII target. -/
def exC1 : ModuleMap :=
  ModuleMap.new.alias "a" AssertedModuleType.javaScriptOrWasm "é"

/-- A registry with a two-entry js partition: an alias from foo to bar and
a concrete entry for bar. -/
def exC2 : ModuleMap :=
  { ModuleMap.new with
    by_name_js := [("foo", SymbolicModule.alias "bar"), ("bar", SymbolicModule.mod 2)] }

/-- A registry built by the public operations in which foo is an alias
entry resolving to the concrete JavaScript module bar. -/
def exC4 : ModuleMap :=
  (ModuleMap.new.inject_handle "bar" ModuleType.javaScript
      (Handle.external_ 0)).alias "foo" AssertedModuleType.javaScriptOrWasm "bar"

/-- All characters of the string are ASCII. -/
def asciiStr (s : String) : Bool := s.data.all fun c => c.toNat < 128

/-- A by-name value survives the snapshot encoding exactly: an alias
target must be ASCII (it is written through a one-byte engine string) and
a concrete id must fit the i32 cast. -/
def symSnapshotSafe : SymbolicModule → Prop
  | SymbolicModule.alias a => asciiStr a = true
  | SymbolicModule.mod id => id < 2147483648

instance (s : SymbolicModule) : Decidable (symSnapshotSafe s) := by
  cases s <;> unfold symSnapshotSafe <;> infer_instance

/-- The bytes EF BB BF 7B 22 61 22 3A 31 7D: a byte-order mark followed
by the JSON text with one member a : 1. -/
def bomJsonBytes : List UInt8 :=
  [0xef, 0xbb, 0xbf, 0x7b, 0x22, 0x61, 0x22, 0x3a, 0x31, 0x7d]

/-- The bytes 7B 62 61 64: an opening brace followed by the letters bad,
malformed JSON. -/
def badJsonBytes : List UInt8 := [0x7b, 0x62, 0x61, 0x64]

/-- A registry built by the public operations with one concrete module
and one alias, all names ASCII and ids small: a round-trip witness. -/
def exC1W : ModuleMap :=
  (ModuleMap.new.inject_handle "a" ModuleType.javaScript
      (Handle.external_ 5)).alias "b" AssertedModuleType.javaScriptOrWasm "a"

/-- A registry built by registering a main ES module. -/
def exC3 : ModuleMap :=
  (ModuleMap.new.new_es_module lrOk true "first.js"
    (CompileResult.ok (Handle.external_ 0) []) false).2

/-- The structural registry invariants holding in every reachable state:
the handle and info lists are index-aligned with dense ids in creation
order; every concrete by-name entry points, within its partition, at an
in-range module whose stored type converts to that partition; and at most
one module is main. -/
def RegistryInv (m : ModuleMap) : Prop :=
  m.handles.length = m.info.length ∧
  m.info.map ModuleInfo.id = List.range m.info.length ∧
  (∀ t name id, lookupByName (m.by_name t) name = some (SymbolicModule.mod id) →
    ∃ i, m.info[id]? = some i ∧ i.module_type.toAsserted = t) ∧
  (m.info.filter fun i => i.main).length ≤ 1

/-- A successful lookup's key occurs among the list's keys. -/
theorem lookupByName_mem_keys : ∀ {l : List (String × SymbolicModule)} {k : String}
    {v : SymbolicModule}, lookupByName l k = some v → k ∈ l.map Prod.fst := by
  intro l
  induction l with
  | nil => intro k v h; simp [lookupByName] at h
  | cons p rest ih =>
    intro k v h
    obtain ⟨k', v'⟩ := p
    by_cases hk : k' = k
    · subst hk; simp
    · simp only [lookupByName, if_neg hk] at h
      simp [ih h]

/-- With fuel at least the chain length plus one, the get_id loop
computes the result of an explicit chain. -/
theorem getIdFuel_of_follows {map : List (String × SymbolicModule)} :
    ∀ (rest : List String) (name : String) (res : Option Nat) (fuel : Nat),
    follows map name rest res → rest.length + 1 ≤ fuel →
    getIdFuel map fuel name = res := by
  intro rest
  induction rest with
  | nil =>
    intro name res fuel hf hfuel
    cases fuel with
    | zero => omega
    | succ f =>
      simp only [follows] at hf
      rcases hf with ⟨hn, hres⟩ | ⟨id, hmod, hres⟩
      · subst hres; simp [getIdFuel, hn]
      · subst hres; simp [getIdFuel, hmod]
  | cons t rest ih =>
    intro name res fuel hf hfuel
    cases fuel with
    | zero => omega
    | succ f =>
      obtain ⟨hl, hf'⟩ := hf
      simp only [getIdFuel, hl]
      exact ih t res f hf' (by simp at hfuel; omega)

/-- Every chain element before the last one is a key of the map. -/
theorem follows_keys {map : List (String × SymbolicModule)} :
    ∀ (rest : List String) (name : String) (res : Option Nat),
    follows map name rest res →
    ∀ x ∈ (name :: rest).dropLast, ∃ v, lookupByName map x = some v := by
  intro rest
  induction rest with
  | nil => intro name res _ x hx; simp at hx
  | cons t rest ih =>
    intro name res hf x hx
    obtain ⟨hl, hf'⟩ := hf
    rw [List.dropLast_cons₂] at hx
    rcases List.mem_cons.mp hx with hx | hx
    · subst hx; exact ⟨_, hl⟩
    · exact ih t res hf' x hx

/-- Pairwise distinct keyed names cannot outnumber the map's entries. -/
theorem keyed_length_le {map : List (String × SymbolicModule)} {l : List String}
    (hk : ∀ x ∈ l, ∃ v, lookupByName map x = some v) (hn : l.Nodup) :
    l.length ≤ map.length := by
  have hsub : l ⊆ map.map Prod.fst := by
    intro x hx
    obtain ⟨v, hv⟩ := hk x hx
    exact lookupByName_mem_keys hv
  have hlen := (List.subperm_of_subset hn hsub).length_le
  simpa using hlen

/-- ModuleMap::get_id computes exactly the result of an acyclic chain. -/
theorem get_id_of_follows {m : ModuleMap} {t : AssertedModuleType} {name : String}
    {rest : List String} {res : Option Nat}
    (hf : follows (m.by_name t) name rest res) (hn : (name :: rest).Nodup) :
    m.get_id name t = res := by
  apply getIdFuel_of_follows rest name res _ hf
  have hkeys := follows_keys rest name res hf
  have hnd : (name :: rest).dropLast.Nodup :=
    hn.sublist (List.dropLast_sublist (name :: rest))
  have hb := keyed_length_le hkeys hnd
  simp only [List.length_dropLast, List.length_cons, Nat.add_sub_cancel] at hb
  omega

/-- C2: get_id follows an acyclic chain of Alias entries to its Concrete
entry and returns that entry's id; for a name absent from the mapping, or
a chain reaching an absent key, it returns none; in particular the
two-hop chain from foo through bar to the concrete id 2 resolves foo to
2, and a missing name resolves to none. -/
theorem c2_get_id_follows_alias_chains :
    (∀ (m : ModuleMap) (t : AssertedModuleType) (name : String)
        (rest : List String) (res : Option Nat),
        follows (m.by_name t) name rest res → (name :: rest).Nodup →
        m.get_id name t = res) ∧
    exC2.get_id "foo" AssertedModuleType.javaScriptOrWasm = some 2 ∧
    exC2.get_id "missing" AssertedModuleType.javaScriptOrWasm = none := by
  refine ⟨fun m t name rest res hf hn => get_id_of_follows hf hn, ?_, ?_⟩ <;> decide

/-- Witness for C2: the general chain statement applied to the concrete
one-step chain for bar in the example registry. -/
theorem c2_get_id_follows_alias_chains_witness :
    exC2.get_id "bar" AssertedModuleType.javaScriptOrWasm = some 2 :=
  c2_get_id_follows_alias_chains.1 exC2 AssertedModuleType.javaScriptOrWasm
    "bar" [] (some 2) (Or.inr ⟨2, by decide, rfl⟩) (by decide)

/-- C4 counterexample: in a registry built by the public operations the
entry for foo is an Alias entry, yet is_registered is true, because the
alias chain resolves to a type-matching concrete module — contradicting
the claim that is_registered is false whenever the entry for the name is
an Alias entry. -/
theorem c4_counterexample :
    lookupByName (exC4.by_name AssertedModuleType.javaScriptOrWasm) "foo"
        = some (SymbolicModule.alias "bar") ∧
    exC4.is_registered "foo" AssertedModuleType.javaScriptOrWasm = true :=
  ⟨by decide, by decide⟩

/-- C4 amended: is_registered is true iff get_id's alias-chain resolution
reaches a concrete id whose stored module type matches the asserted type;
it is false for an absent name and for a resolved type mismatch, and a
direct Concrete entry with matching stored type yields true. An Alias
entry does not by itself force false: its chain's resolution decides. -/
theorem c4_is_registered_characterization :
    ∀ (m : ModuleMap) (name : String) (t : AssertedModuleType),
      (m.is_registered name t = true ↔
        ∃ id i, m.get_id name t = some id ∧ m.info[id]? = some i ∧
          i.module_type.toAsserted = t) ∧
      (lookupByName (m.by_name t) name = none → m.is_registered name t = false) ∧
      (∀ id i, lookupByName (m.by_name t) name = some (SymbolicModule.mod id) →
        m.info[id]? = some i → i.module_type.toAsserted = t →
        m.is_registered name t = true) ∧
      (∀ id i, m.get_id name t = some id → m.info[id]? = some i →
        i.module_type.toAsserted ≠ t → m.is_registered name t = false) := by
  intro m name t
  refine ⟨⟨?_, ?_⟩, ?_, ?_, ?_⟩
  · intro h
    cases hget : m.get_id name t with
    | none => simp [ModuleMap.is_registered, hget] at h
    | some id =>
      cases hinfo : m.info[id]? with
      | none => simp [ModuleMap.is_registered, ModuleMap.get_info_by_id, hget, hinfo] at h
      | some i =>
        simp only [ModuleMap.is_registered, ModuleMap.get_info_by_id, hget, hinfo,
          decide_eq_true_eq] at h
        exact ⟨id, i, rfl, hinfo, h.symm⟩
  · rintro ⟨id, i, h1, h2, h3⟩
    simp [ModuleMap.is_registered, ModuleMap.get_info_by_id, h1, h2, h3]
  · intro hnone
    have hget : m.get_id name t = none :=
      get_id_of_follows
        (show follows (m.by_name t) name [] none from Or.inl ⟨hnone, rfl⟩) (by simp)
    simp [ModuleMap.is_registered, hget]
  · intro id i hmod hinfo htype
    have hget : m.get_id name t = some id :=
      get_id_of_follows
        (show follows (m.by_name t) name [] (some id) from Or.inr ⟨id, hmod, rfl⟩)
        (by simp)
    simp [ModuleMap.is_registered, ModuleMap.get_info_by_id, hget, hinfo, htype]
  · intro id i hget hinfo htype
    simp only [ModuleMap.is_registered, ModuleMap.get_info_by_id, hget, hinfo,
      decide_eq_false_iff_not]
    exact fun hc => htype hc.symm

/-- Witness for C4: the direct-concrete-entry clause applied to the
concrete module bar of the example registry. -/
theorem c4_is_registered_characterization_witness :
    exC4.is_registered "bar" AssertedModuleType.javaScriptOrWasm = true :=
  (c4_is_registered_characterization exC4 "bar" AssertedModuleType.javaScriptOrWasm).2.2.1 0
    { id := 0, main := false, name := "bar", requests := [], module_type := ModuleType.javaScript }
    (by decide) (by decide) (by decide)

/-- C6 counterexample: with an empty registry and a loader that resolves
successfully, the re-resolved specifier is not found in the registry, yet
resolve_callback returns normally — some none handed back to the engine —
and not the panic (the outer none of the model), contradicting the claim
that a missing registry entry is an assertion/panic-equivalent abort. -/
theorem c6_counterexample :
    ModuleMap.new.get_id "a.js" AssertedModuleType.javaScriptOrWasm = none ∧
    ModuleMap.new.resolve_callback lrOk "a.js" "b.js" [] = some none ∧
    some (none : Option Handle) ≠ (none : Option (Option Handle)) :=
  ⟨by decide, by decide, by decide⟩

/-- C6 amended: the panic-equivalent abort in resolve_callback happens
exactly when the loader's re-resolution fails (the expect whose message
says the module should have been already resolved); when re-resolution
succeeds the callback never aborts: it returns the registered handle when
the registry has one, and otherwise returns none to the engine. -/
theorem c6_resolve_callback_behavior :
    ∀ (m : ModuleMap) (lr : LoaderResolve) (s r : String)
      (a : List (String × String)),
      (m.resolve_callback lr s r a = none ↔
        ∃ e, lr s r ResolutionKind.staticImport = Except.error e) ∧
      (∀ rs, lr s r ResolutionKind.staticImport = Except.ok rs →
        m.resolve_callback lr s r a =
          some ((m.get_id rs (get_asserted_module_type_from_assertions a)).bind
            m.get_handle)) := by
  intro m lr s r a
  constructor
  · constructor
    · intro h
      cases hres : lr s r ResolutionKind.staticImport with
      | error e => exact ⟨e, rfl⟩
      | ok rs => simp [ModuleMap.resolve_callback, hres] at h
    · rintro ⟨e, he⟩
      simp [ModuleMap.resolve_callback, he]
  · intro rs hres
    simp only [ModuleMap.resolve_callback, hres]
    congr 1
    cases m.get_id rs (get_asserted_module_type_from_assertions a) <;> rfl

/-- Witness for C6 amended: a failing loader makes the callback hit the
expect, and on the empty registry a successful resolution returns none to
the engine. -/
theorem c6_resolve_callback_behavior_witness :
    ModuleMap.new.resolve_callback lrErr "a.js" "b.js" [] = none :=
  ((c6_resolve_callback_behavior ModuleMap.new lrErr "a.js" "b.js" []).1).mpr
    ⟨"resolution failed", rfl⟩

/-- Resolver lookup after the recording insert finds the resolver. -/
theorem lookupDynMap_insert (l : List (Int × Nat)) (k : Int) (v : Nat) :
    lookupDynMap (insertDynMap l k v) k = some v := by
  induction l with
  | nil => simp [insertDynMap, lookupDynMap]
  | cons p rest ih =>
    obtain ⟨k', v'⟩ := p
    by_cases hk : k' = k
    · subst hk; simp [insertDynMap, lookupDynMap]
    · simp [insertDynMap, lookupDynMap, hk, ih]

/-- is_registered reads only the by-name partitions and the info list, so
updating the load counter and the dynamic-import map leaves it as is. -/
theorem is_registered_load_state (m : ModuleMap) (nl : Int) (dm : List (Int × Nat))
    (s : String) (t : AssertedModuleType) :
    ({ m with next_load_id := nl, dynamic_import_map := dm } : ModuleMap).is_registered s t
      = m.is_registered s t := by
  cases t <;> rfl

/-- C5: dynamic-import dispatch: the promise resolver is recorded under
the freshly allocated load id in every path; when the loader resolves the
specifier and the target is already registered under the asserted type,
the pushed future is the immediate success — no prepare step, hence no
fetch and no recompile; when resolution fails, the pushed future is the
immediate failure carrying that error. -/
theorem c5_load_dynamic_import_short_circuit :
    ∀ (m : ModuleMap) (lr : LoaderResolve) (s r : String)
      (t : AssertedModuleType) (rh : Nat),
      (∀ ms, lr s r ResolutionKind.dynamicImport = Except.ok ms →
        m.is_registered ms t = true →
        (m.load_dynamic_import lr s r t rh).preparing_dynamic_imports =
          m.preparing_dynamic_imports ++ [PreparedDynFut.immediateOk m.next_load_id]) ∧
      (∀ e, lr s r ResolutionKind.dynamicImport = Except.error e →
        (m.load_dynamic_import lr s r t rh).preparing_dynamic_imports =
          m.preparing_dynamic_imports ++ [PreparedDynFut.immediateErr m.next_load_id e]) ∧
      lookupDynMap (m.load_dynamic_import lr s r t rh).dynamic_import_map
          m.next_load_id = some rh := by
  intro m lr s r t rh
  refine ⟨?_, ?_, ?_⟩
  · intro ms hres hreg
    simp only [ModuleMap.load_dynamic_import, hres, is_registered_load_state, hreg, if_true]
  · intro e hres
    simp only [ModuleMap.load_dynamic_import, hres]
  · simp only [ModuleMap.load_dynamic_import]
    exact lookupDynMap_insert m.dynamic_import_map m.next_load_id rh

/-- Witness for C5: on a registry where a js module is already registered
and an identity loader, the dispatch pushes the immediate success and has
recorded the resolver under the allocated load id. -/
theorem c5_load_dynamic_import_short_circuit_witness :
    (exC4.load_dynamic_import lrOk "bar" "main.js"
        AssertedModuleType.javaScriptOrWasm 9).preparing_dynamic_imports =
      exC4.preparing_dynamic_imports ++ [PreparedDynFut.immediateOk exC4.next_load_id] ∧
    lookupDynMap (exC4.load_dynamic_import lrOk "bar" "main.js"
        AssertedModuleType.javaScriptOrWasm 9).dynamic_import_map
      exC4.next_load_id = some 9 :=
  ⟨(c5_load_dynamic_import_short_circuit exC4 lrOk "bar" "main.js"
      AssertedModuleType.javaScriptOrWasm 9).1 "bar" rfl (by decide),
   (c5_load_dynamic_import_short_circuit exC4 lrOk "bar" "main.js"
      AssertedModuleType.javaScriptOrWasm 9).2.2⟩

/-- set_by_name only touches the by-name partitions. -/
theorem set_by_name_handles (m : ModuleMap) (t : AssertedModuleType)
    (v : List (String × SymbolicModule)) : (m.set_by_name t v).handles = m.handles := by
  cases t <;> rfl

/-- set_by_name leaves the info list unchanged. -/
theorem set_by_name_info (m : ModuleMap) (t : AssertedModuleType)
    (v : List (String × SymbolicModule)) : (m.set_by_name t v).info = m.info := by
  cases t <;> rfl

/-- Reading a partition after writing one: the written partition when the
types agree, the untouched one otherwise. -/
theorem set_by_name_by_name (m : ModuleMap) (t t' : AssertedModuleType)
    (v : List (String × SymbolicModule)) :
    (m.set_by_name t v).by_name t' = if t' = t then v else m.by_name t' := by
  cases t <;> cases t' <;> simp [ModuleMap.set_by_name, ModuleMap.by_name]

/-- The handle list after create_module_info. -/
theorem create_module_info_handles (m : ModuleMap) (name : String)
    (mt : ModuleType) (h : Handle) (main : Bool) (reqs : List ModuleRequest) :
    ((m.create_module_info name mt h main reqs).2).handles = m.handles ++ [h] := by
  simp [ModuleMap.create_module_info, set_by_name_handles]

/-- The info list after create_module_info. -/
theorem create_module_info_info (m : ModuleMap) (name : String)
    (mt : ModuleType) (h : Handle) (main : Bool) (reqs : List ModuleRequest) :
    ((m.create_module_info name mt h main reqs).2).info = m.info ++
      [{ id := m.handles.length, main := main, name := name
       , requests := reqs, module_type := mt }] := by
  simp [ModuleMap.create_module_info, set_by_name_info]

/-- The partitions after create_module_info: the partition of the
module's own type gains the concrete entry for the fresh id. -/
theorem create_module_info_by_name (m : ModuleMap) (name : String)
    (mt : ModuleType) (h : Handle) (main : Bool) (reqs : List ModuleRequest)
    (t : AssertedModuleType) :
    ((m.create_module_info name mt h main reqs).2).by_name t =
      if t = mt.toAsserted then
        insertByName (m.by_name mt.toAsserted) name (SymbolicModule.mod m.handles.length)
      else m.by_name t := by
  have hby : ∀ (m1 : ModuleMap) (hs : List Handle) (is : List ModuleInfo),
      ({ m1 with handles := hs, info := is } : ModuleMap).by_name t = m1.by_name t := by
    intro m1 hs is; cases t <;> rfl
  simp [ModuleMap.create_module_info, hby, set_by_name_by_name]

/-- C9: new_es_module is atomic: every error outcome — compile exception,
import-assertion validation failure, request-resolution failure, or
duplicate main — leaves the map unchanged, and a success grows the handle
and info lists by exactly one module. -/
theorem c9_new_es_module_atomic :
    ∀ (m : ModuleMap) (lr : LoaderResolve) (main : Bool) (name : String)
      (compiled : CompileResult) (isdyn : Bool),
      (∀ e, (m.new_es_module lr main name compiled isdyn).1 = Except.error e →
        (m.new_es_module lr main name compiled isdyn).2 = m) ∧
      (∀ id, (m.new_es_module lr main name compiled isdyn).1 = Except.ok id →
        (m.new_es_module lr main name compiled isdyn).2.handles.length
            = m.handles.length + 1 ∧
        (m.new_es_module lr main name compiled isdyn).2.info.length
            = m.info.length + 1) := by
  intro m lr main name compiled isdyn
  cases compiled with
  | exception e =>
    exact ⟨fun _ _ => rfl, fun id h => by simp [ModuleMap.new_es_module] at h⟩
  | ok handle raw =>
    cases hpr : processRequests lr name isdyn raw with
    | error e =>
      refine ⟨fun e' _ => ?_, fun id h => ?_⟩
      · simp [ModuleMap.new_es_module, hpr]
      · simp [ModuleMap.new_es_module, hpr] at h
    | ok reqs =>
      cases main with
      | true =>
        cases hfind : m.info.find? (fun i => i.main) with
        | some mm =>
          refine ⟨fun e' _ => ?_, fun id h => ?_⟩
          · simp [ModuleMap.new_es_module, hpr, hfind]
          · simp [ModuleMap.new_es_module, hpr, hfind] at h
        | none =>
          refine ⟨fun e' h => ?_, fun id _ => ?_⟩
          · simp [ModuleMap.new_es_module, hpr, hfind] at h
          · constructor <;>
              simp [ModuleMap.new_es_module, hpr, hfind,
                create_module_info_handles, create_module_info_info]
      | false =>
        refine ⟨fun e' h => ?_, fun id _ => ?_⟩
        · simp [ModuleMap.new_es_module, hpr] at h
        · constructor <;>
            simp [ModuleMap.new_es_module, hpr,
              create_module_info_handles, create_module_info_info]

/-- Witness for C9: a compile exception leaves the fresh map unchanged,
and a successful empty-requests compile grows it by one module. -/
theorem c9_new_es_module_atomic_witness :
    (ModuleMap.new.new_es_module lrOk false "m.js"
        (CompileResult.exception "boom") false).2 = ModuleMap.new ∧
    (ModuleMap.new.new_es_module lrOk false "m.js"
        (CompileResult.ok (Handle.external_ 1) []) false).2.handles.length
      = ModuleMap.new.handles.length + 1 :=
  ⟨(c9_new_es_module_atomic ModuleMap.new lrOk false "m.js"
      (CompileResult.exception "boom") false).1 (ModuleError.exception "boom") rfl,
   ((c9_new_es_module_atomic ModuleMap.new lrOk false "m.js"
      (CompileResult.ok (Handle.external_ 1) []) false).2 0 rfl).1⟩

/-- Lookup after a HashMap-style insert: the inserted value at the
inserted key, the previous content elsewhere. -/
theorem lookupByName_insert : ∀ (l : List (String × SymbolicModule)) (k : String)
    (v : SymbolicModule) (k' : String),
    lookupByName (insertByName l k v) k' =
      if k' = k then some v else lookupByName l k' := by
  intro l k v
  induction l with
  | nil =>
    intro k'
    by_cases h : k' = k
    · subst h; simp [insertByName, lookupByName]
    · have h2 : ¬k = k' := fun hh => h hh.symm
      simp [insertByName, lookupByName, h, h2]
  | cons p rest ih =>
    intro k'
    obtain ⟨k0, v0⟩ := p
    by_cases h0 : k0 = k
    · subst h0
      by_cases h : k' = k0
      · subst h; simp [insertByName, lookupByName]
      · have h2 : ¬k0 = k' := fun hh => h hh.symm
        simp [insertByName, lookupByName, h, h2]
    · by_cases h : k' = k0
      · subst h
        have hne : ¬k' = k := fun hh => h0 (hh ▸ rfl)
        simp [insertByName, lookupByName, h0, hne]
      · have h2 : ¬k0 = k' := fun hh => h hh.symm
        simp [insertByName, lookupByName, h0, h, h2, ih k']

/-- The registry invariants ignore the json value store. -/
theorem registryInv_store (m : ModuleMap) (s : List (Handle × JsonValue)) :
    RegistryInv m → RegistryInv { m with json_value_store := s } := by
  rintro ⟨h1, h2, h3, h4⟩
  refine ⟨h1, h2, fun t => ?_, h4⟩
  cases t
  · exact h3 AssertedModuleType.javaScriptOrWasm
  · exact h3 AssertedModuleType.json

/-- create_module_info preserves the registry invariants, assuming no
existing main module when the new one is main. -/
theorem registryInv_create (m : ModuleMap) (name : String) (mt : ModuleType)
    (h : Handle) (mainFlag : Bool) (reqs : List ModuleRequest)
    (hinv : RegistryInv m)
    (hmain : mainFlag = true → m.info.find? (fun i => i.main) = none) :
    RegistryInv ((m.create_module_info name mt h mainFlag reqs).2) := by
  obtain ⟨h1, h2, h3, h4⟩ := hinv
  refine ⟨?_, ?_, ?_, ?_⟩
  · simp [create_module_info_handles, create_module_info_info, h1]
  · simp only [create_module_info_info, List.map_append, List.length_append,
      List.map_cons, List.map_nil, List.length_cons, List.length_nil]
    rw [h2, h1, List.range_succ]
  · intro t name' id hl
    rw [create_module_info_by_name] at hl
    by_cases ht : t = mt.toAsserted
    · rw [if_pos ht, lookupByName_insert] at hl
      by_cases hn : name' = name
      · rw [if_pos hn] at hl
        obtain rfl : m.handles.length = id := by
          injection hl with hl'; injection hl'
        refine ⟨{ id := m.handles.length, main := mainFlag, name := name
                , requests := reqs, module_type := mt }, ?_, ht.symm⟩
        rw [create_module_info_info, h1, List.getElem?_concat_length]
      · rw [if_neg hn] at hl
        obtain ⟨i, hi, hty⟩ := h3 mt.toAsserted name' id hl
        obtain ⟨hlt, _⟩ := List.getElem?_eq_some_iff.mp hi
        refine ⟨i, ?_, ht ▸ hty⟩
        rw [create_module_info_info, List.getElem?_append_left hlt]
        exact hi
    · rw [if_neg ht] at hl
      obtain ⟨i, hi, hty⟩ := h3 t name' id hl
      obtain ⟨hlt, _⟩ := List.getElem?_eq_some_iff.mp hi
      refine ⟨i, ?_, hty⟩
      rw [create_module_info_info, List.getElem?_append_left hlt]
      exact hi
  · rw [create_module_info_info, List.filter_append]
    cases mainFlag with
    | false => simpa using h4
    | true =>
      have hnone := hmain rfl
      have hempty : m.info.filter (fun i => i.main) = [] := by
        rw [List.filter_eq_nil_iff]
        intro a ha
        exact List.find?_eq_none.mp hnone a ha
      simp [hempty]

/-- The registry invariants hold in every reachable state. -/
theorem reachable_registryInv : ∀ m : ModuleMap, Reachable m → RegistryInv m := by
  have hinit : RegistryInv ModuleMap.new := by
    refine ⟨rfl, rfl, ?_, by simp [ModuleMap.new]⟩
    intro t name id hl
    cases t <;> simp [ModuleMap.by_name, ModuleMap.new, lookupByName] at hl
  intro m h
  induction h with
  | init => exact hinit
  | es m lr mainFlag name compiled isdyn hr ih =>
    cases compiled with
    | exception e => exact ih
    | ok handle raw =>
      cases hpr : processRequests lr name isdyn raw with
      | error e => simpa [ModuleMap.new_es_module, hpr] using ih
      | ok reqs =>
        cases mainFlag with
        | true =>
          cases hfind : m.info.find? (fun i => i.main) with
          | some mm => simpa [ModuleMap.new_es_module, hpr, hfind] using ih
          | none =>
            have := registryInv_create m name ModuleType.javaScript handle true reqs
              ih (fun _ => hfind)
            simpa [ModuleMap.new_es_module, hpr, hfind] using this
        | false =>
          have := registryInv_create m name ModuleType.javaScript handle false reqs
            ih (fun hh => by simp at hh)
          simpa [ModuleMap.new_es_module, hpr] using this
  | jsonMod m name source hr ih =>
    cases hp : jsonParse (utf8DecodeLossy (strip_bom source)) with
    | error e => simpa [ModuleMap.new_json_module, hp] using ih
    | ok v =>
      have hc := registryInv_create
        { m with json_value_store :=
            insertStore m.json_value_store (Handle.synthetic name ["default"]) v }
        name ModuleType.json (Handle.synthetic name ["default"]) false []
        (registryInv_store m
          (insertStore m.json_value_store (Handle.synthetic name ["default"]) v) ih)
        (fun hh => by simp at hh)
      simpa [ModuleMap.new_json_module, hp] using hc
  | inject m name mt handle hr ih =>
    exact registryInv_create m name mt handle false [] ih (fun hh => by simp at hh)
  | aliasOp m name t target hr ih =>
    obtain ⟨h1, h2, h3, h4⟩ := ih
    refine ⟨?_, ?_, ?_, ?_⟩
    · simpa [ModuleMap.alias, set_by_name_handles, set_by_name_info] using h1
    · simpa [ModuleMap.alias, set_by_name_info] using h2
    · intro t' name' id hl
      rw [ModuleMap.alias, set_by_name_by_name] at hl
      have hinfo : (m.set_by_name t (insertByName (m.by_name t) name
          (SymbolicModule.alias target))).info = m.info := set_by_name_info ..
      rw [ModuleMap.alias, hinfo]
      by_cases ht : t' = t
      · rw [if_pos ht, lookupByName_insert] at hl
        by_cases hn : name' = name
        · rw [if_pos hn] at hl; simp at hl
        · rw [if_neg hn] at hl; exact ht ▸ h3 t name' id hl
      · rw [if_neg ht] at hl; exact h3 t' name' id hl
    · simpa [ModuleMap.alias, set_by_name_info] using h4
  | clearOp m hr ih => exact hinit
  | dyn m lr specifier referrer t rh hr ih =>
    obtain ⟨h1, h2, h3, h4⟩ := ih
    refine ⟨h1, h2, fun t' => ?_, h4⟩
    cases t'
    · exact h3 AssertedModuleType.javaScriptOrWasm
    · exact h3 AssertedModuleType.json

/-- Extracting the witness entry of a successful get_id run. -/
theorem getIdFuel_mod {map : List (String × SymbolicModule)} :
    ∀ (fuel : Nat) (name : String) (id : Nat), getIdFuel map fuel name = some id →
    ∃ n, lookupByName map n = some (SymbolicModule.mod id) := by
  intro fuel
  induction fuel with
  | zero => intro name id h; simp [getIdFuel] at h
  | succ f ih =>
    intro name id h
    cases hl : lookupByName map name with
    | none => simp [getIdFuel, hl] at h
    | some sym =>
      cases sym
      case mod i =>
        simp only [getIdFuel, hl, Option.some.injEq] at h
        exact ⟨name, h ▸ hl⟩
      case _ t =>
        simp only [getIdFuel, hl] at h
        exact ih t id h

/-- C3: registering a concrete ES module with main true fails whenever a
main module already exists — whatever the engine's compile outcome — and
in the duplicate-main path the returned error is the message naming both
the attempted module and the pre-existing main module; consequently, over
all reachable states, at most one ModuleInfo has main true. -/
theorem c3_duplicate_main_rejected :
    (∀ (m : ModuleMap) (lr : LoaderResolve) (name : String)
        (compiled : CompileResult) (isdyn : Bool),
        (∃ i, i ∈ m.info ∧ i.main = true) →
        ∃ e, (m.new_es_module lr true name compiled isdyn).1 = Except.error e) ∧
    (∀ (m : ModuleMap) (lr : LoaderResolve) (name : String) (handle : Handle)
        (raw : List RawModuleRequest) (isdyn : Bool) (reqs : List ModuleRequest)
        (mm : ModuleInfo),
        processRequests lr name isdyn raw = Except.ok reqs →
        m.info.find? (fun i => i.main) = some mm →
        (m.new_es_module lr true name (CompileResult.ok handle raw) isdyn).1 =
          Except.error (ModuleError.other (duplicateMainMessage name mm.name))) ∧
    (∀ m : ModuleMap, Reachable m → (m.info.filter fun i => i.main).length ≤ 1) := by
  refine ⟨?_, ?_, ?_⟩
  · intro m lr name compiled isdyn hex
    have hsome : (m.info.find? (fun i => i.main)).isSome := by
      rw [List.find?_isSome]
      obtain ⟨i, him, hmain⟩ := hex
      exact ⟨i, him, by simp [hmain]⟩
    obtain ⟨mm, hmm⟩ := Option.isSome_iff_exists.mp hsome
    cases compiled with
    | exception e => exact ⟨ModuleError.exception e, rfl⟩
    | ok handle raw =>
      cases hpr : processRequests lr name isdyn raw with
      | error e => exact ⟨e, by simp [ModuleMap.new_es_module, hpr]⟩
      | ok reqs =>
        exact ⟨ModuleError.other (duplicateMainMessage name mm.name),
          by simp [ModuleMap.new_es_module, hpr, hmm]⟩
  · intro m lr name handle raw isdyn reqs mm hpr hfind
    simp [ModuleMap.new_es_module, hpr, hfind]
  · intro m h
    exact (reachable_registryInv m h).2.2.2

/-- Witness for C3: registering a second main module on a registry whose
first module is main yields exactly the duplicate-main message naming
both modules. -/
theorem c3_duplicate_main_rejected_witness :
    (exC3.new_es_module lrOk true "second.js"
        (CompileResult.ok (Handle.external_ 1) []) false).1 =
      Except.error (ModuleError.other (duplicateMainMessage "second.js" "first.js")) :=
  c3_duplicate_main_rejected.2.1 exC3 lrOk "second.js" (Handle.external_ 1) [] false []
    { id := 0, main := true, name := "first.js", requests := []
    , module_type := ModuleType.javaScript }
    rfl (by decide)

/-- C8: in every state reachable through the public operations the handle
list and the info list have equal length, and ids are dense, zero-based
and assigned in creation order: the info list's ids are exactly the range
of indices, so the entry at index i has id i. -/
theorem c8_dense_aligned_ids : ∀ m : ModuleMap, Reachable m →
    m.handles.length = m.info.length ∧
    m.info.map ModuleInfo.id = List.range m.info.length ∧
    ∀ i (hi : i < m.info.length), (m.info.get ⟨i, hi⟩).id = i := by
  intro m h
  obtain ⟨h1, h2, _, _⟩ := reachable_registryInv m h
  refine ⟨h1, h2, ?_⟩
  intro i hi
  have hq := congrArg (fun l => l[i]?) h2
  simp only [List.getElem?_map, List.getElem?_range hi,
    List.getElem?_eq_getElem hi, Option.map_some] at hq
  simpa using Option.some.inj hq

/-- Witness for C8: the invariant applied to a concrete reachable
registry with two modules. -/
theorem c8_dense_aligned_ids_witness :
    (exC3.inject_handle "util.js" ModuleType.javaScript
        (Handle.external_ 3)).handles.length =
      (exC3.inject_handle "util.js" ModuleType.javaScript
        (Handle.external_ 3)).info.length :=
  (c8_dense_aligned_ids _
    (Reachable.inject exC3 "util.js" ModuleType.javaScript (Handle.external_ 3)
      (Reachable.es ModuleMap.new lrOk true "first.js"
        (CompileResult.ok (Handle.external_ 0) []) false Reachable.init))).1

/-- C10: in every reachable state, a Concrete entry stored in a partition
refers to an in-range ModuleInfo whose module type converts to that
partition's asserted type, and consequently whenever get_id resolves a
name the type check inside is_registered passes. -/
theorem c10_partition_type_coherence : ∀ m : ModuleMap, Reachable m →
    (∀ t name id, lookupByName (m.by_name t) name = some (SymbolicModule.mod id) →
      ∃ i, m.info[id]? = some i ∧ i.module_type.toAsserted = t) ∧
    (∀ name t id, m.get_id name t = some id → m.is_registered name t = true) := by
  intro m h
  obtain ⟨_, _, hco, _⟩ := reachable_registryInv m h
  refine ⟨hco, ?_⟩
  intro name t id hget
  obtain ⟨n, hn⟩ := getIdFuel_mod _ name id hget
  obtain ⟨i, hi, hty⟩ := hco t n id hn
  simp [ModuleMap.is_registered, ModuleMap.get_info_by_id, hget, hi, hty]

/-- Witness for C10: in the concrete reachable registry with an alias,
get_id resolves foo and is_registered agrees. -/
theorem c10_partition_type_coherence_witness :
    exC4.is_registered "foo" AssertedModuleType.javaScriptOrWasm = true :=
  (c10_partition_type_coherence exC4
    (Reachable.aliasOp _ "foo" AssertedModuleType.javaScriptOrWasm "bar"
      (Reachable.inject ModuleMap.new "bar" ModuleType.javaScript
        (Handle.external_ 0) Reachable.init))).2
    "foo" AssertedModuleType.javaScriptOrWasm 0 (by decide)

/-- C7: new_json_module strips a leading byte-order mark, so the
BOM-prefixed bytes of the one-member object register a Json module with
main false, no requests, and a synthetic module whose single export is
default, storing the parsed object with member a equal to 1; the
malformed input of an opening brace followed by bad returns the parser's
own diagnostic as the caught exception and leaves the map unchanged; and
every error new_json_module returns carries a parse diagnostic — never a
generic failure. -/
theorem c7_json_module_bom_and_errors :
    strip_bom bomJsonBytes = [0x7b, 0x22, 0x61, 0x22, 0x3a, 0x31, 0x7d] ∧
    (ModuleMap.new.new_json_module "a.json" bomJsonBytes).1 = Except.ok 0 ∧
    (ModuleMap.new.new_json_module "a.json" bomJsonBytes).2.info =
      [{ id := 0, main := false, name := "a.json", requests := []
       , module_type := ModuleType.json }] ∧
    (ModuleMap.new.new_json_module "a.json" bomJsonBytes).2.handles =
      [Handle.synthetic "a.json" ["default"]] ∧
    (ModuleMap.new.new_json_module "a.json" bomJsonBytes).2.json_value_store =
      [(Handle.synthetic "a.json" ["default"],
        JsonValue.obj [("a", JsonValue.num 1)])] ∧
    ModuleMap.new.new_json_module "b.json" badJsonBytes =
      (Except.error (ModuleError.exception
        "Expected string key in JSON at position 1"), ModuleMap.new) ∧
    (∀ (m : ModuleMap) (name : String) (src : List UInt8) (e : ModuleError),
      (m.new_json_module name src).1 = Except.error e →
      ∃ d, e = ModuleError.exception d ∧
        jsonParse (utf8DecodeLossy (strip_bom src)) = Except.error d) := by
  have hv : jsonNumValue false [1] [] (false, []) = 1 := by
    norm_num [jsonNumValue, digitsToNat]
  have hs : (ModuleMap.new.new_json_module "a.json" bomJsonBytes).2.json_value_store =
      [(Handle.synthetic "a.json" ["default"],
        JsonValue.obj [("a", JsonValue.num (jsonNumValue false [1] [] (false, [])))])] := rfl
  rw [hv] at hs
  refine ⟨by decide, rfl, rfl, rfl, hs, rfl, ?_⟩
  intro m name src e h
  cases hp : jsonParse (utf8DecodeLossy (strip_bom src)) with
  | error d =>
    refine ⟨d, ?_, rfl⟩
    simp only [ModuleMap.new_json_module, hp, Except.error.injEq] at h
    exact h.symm
  | ok v => simp [ModuleMap.new_json_module, hp] at h

/-- Witness for C7: the error characterization applied at the malformed
concrete input. -/
theorem c7_json_module_bom_and_errors_witness :
    ∃ d, ModuleError.exception "Expected string key in JSON at position 1"
        = ModuleError.exception d ∧
      jsonParse (utf8DecodeLossy (strip_bom badJsonBytes)) = Except.error d :=
  c7_json_module_bom_and_errors.2.2.2.2.2.2 ModuleMap.new "b.json" badJsonBytes
    (ModuleError.exception "Expected string key in JSON at position 1") rfl

/-- The i32 cast is the identity below two to the thirty-first. -/
theorem toI32_small (n : Nat) (h : n < 2147483648) : toI32 n = (n : Int) := by
  have h0 : (0 : Int) ≤ (n : Int) := Int.natCast_nonneg n
  have h1 : (n : Int) < 4294967296 := by omega
  have h2 : (n : Int) % 4294967296 = (n : Int) := Int.emod_eq_of_lt h0 h1
  simp only [toI32, h2]
  rw [if_pos (by omega)]

/-- Reading a small id back through the usize cast recovers it. -/
theorem i64ToUsize_natCast (n : Nat) (h : n < 2147483648) :
    i64ToUsize (n : Int) = n := by
  have h2 : (n : Int) % 18446744073709551616 = (n : Int) :=
    Int.emod_eq_of_lt (Int.natCast_nonneg n) (by omega)
  simp [i64ToUsize, h2]

/-- The asserted-type discriminant decodes back. -/
theorem intToAmt_amtToInt (t : AssertedModuleType) : intToAmt (amtToInt t) = some t := by
  cases t <;> rfl

/-- The module-type discriminant decodes back. -/
theorem intToMt_mtToInt (t : ModuleType) : intToMt (mtToInt t) = some t := by
  cases t <;> rfl

/-- The one-byte engine string is the identity on ASCII strings. -/
theorem oneByteStr_ascii (s : String) (h : asciiStr s = true) : oneByteStr s = s := by
  obtain ⟨data⟩ := s
  simp only [asciiStr, List.all_eq_true, decide_eq_true_eq] at h
  simp only [oneByteStr, strUtf8]
  congr 1
  induction data with
  | nil => rfl
  | cons c cs ih =>
    have hc : c.toNat < 128 := h c (by exact List.mem_cons_self c cs)
    have hcs := ih (fun x hx => h x (List.mem_cons_of_mem _ hx))
    simp only [List.map_cons, utf8EncodeChar, if_pos (show c.toNat < 0x80 from hc),
      List.flatten_cons, List.singleton_append]
    rw [UInt8.toNat_ofNat_of_lt (by have hsz : UInt8.size = 256 := rfl; omega),
      Char.ofNat_toNat]
    exact congrArg (c :: ·) hcs

/-- A request survives the encode-decode pair when its specifier is
ASCII. -/
theorem decodeRequest_encode (r : ModuleRequest) (h : asciiStr r.specifier = true) :
    decodeRequest (oneByteStr r.specifier, amtToInt r.asserted_module_type) = some r := by
  obtain ⟨spec, t⟩ := r
  simp [decodeRequest, intToAmt_amtToInt, oneByteStr_ascii spec h]

/-- The request list survives the encode-decode pair when all specifiers
are ASCII. -/
theorem mapM_decodeRequest_encode : ∀ (l : List ModuleRequest),
    (∀ r ∈ l, asciiStr r.specifier = true) →
    (l.map fun r => (oneByteStr r.specifier, amtToInt r.asserted_module_type)).mapM
      decodeRequest = some l := by
  intro l
  induction l with
  | nil => intro _; rfl
  | cons r rs ih =>
    intro hreq
    have h1 := decodeRequest_encode r (hreq r (List.mem_cons_self r rs))
    have h2 := ih (fun x hx => hreq x (List.mem_cons_of_mem _ hx))
    rw [List.map_cons, List.mapM_cons, h1, h2]
    rfl

/-- A ModuleInfo survives the encode-decode pair when its id is small and
its request specifiers are ASCII. -/
theorem decodeInfo_encode (i : ModuleInfo) (hid : i.id < 2147483648)
    (hreq : ∀ r ∈ i.requests, asciiStr r.specifier = true) :
    decodeInfo (encodeModuleInfo i) = some i := by
  obtain ⟨id, mainf, name, requests, mt⟩ := i
  have hm := mapM_decodeRequest_encode requests hreq
  have hidc : i64ToUsize (toI32 id) = id := by
    rw [toI32_small id hid, i64ToUsize_natCast id hid]
  simp only [decodeInfo, encodeModuleInfo]
  rw [hm]
  simp [intToMt_mtToInt, hidc]

/-- The whole info list survives the encode-decode pair. -/
theorem mapM_decodeInfo_encode : ∀ (l : List ModuleInfo),
    (∀ i ∈ l, i.id < 2147483648) →
    (∀ i ∈ l, ∀ r ∈ i.requests, asciiStr r.specifier = true) →
    (l.map encodeModuleInfo).mapM decodeInfo = some l := by
  intro l
  induction l with
  | nil => intro _ _; rfl
  | cons i rest ih =>
    intro hids hreqs
    have h1 := decodeInfo_encode i (hids i (List.mem_cons_self i rest))
      (hreqs i (List.mem_cons_self i rest))
    have h2 := ih (fun x hx => hids x (List.mem_cons_of_mem _ hx))
      (fun x hx => hreqs x (List.mem_cons_of_mem _ hx))
    rw [List.map_cons, List.mapM_cons, h1, h2]
    rfl

/-- A SymbolicModule survives the encode-decode pair when snapshot
safe. -/
theorem decodeSym_encode (s : SymbolicModule) (hs : symSnapshotSafe s) :
    decodeSym (encodeSymbolicModule s) = some s := by
  cases s with
  | mod id =>
    have hid : id < 2147483648 := hs
    have h0 : ¬toI32 id < 0 := by rw [toI32_small id hid]; omega
    simp [encodeSymbolicModule, decodeSym, h0, toI32_small id hid]
  | _ =>
    rename_i a
    have ha : asciiStr a = true := hs
    simp [encodeSymbolicModule, decodeSym, oneByteStr_ascii a ha]

/-- Decoding one encoded by-name entry performs the corresponding
insert. -/
theorem decodeByNameEntry_encode (acc : ModuleMap) (t : AssertedModuleType)
    (name : String) (s : SymbolicModule) (hs : symSnapshotSafe s) :
    decodeByNameEntry acc (name, amtToInt t, encodeSymbolicModule s) =
      some (acc.set_by_name t (insertByName (acc.by_name t) name s)) := by
  simp [decodeByNameEntry, intToAmt_amtToInt, decodeSym_encode s hs]

/-- The monadic repopulation fold over one encoded partition is the pure
insert fold. -/
theorem foldlM_decode_partition (t : AssertedModuleType) :
    ∀ (l : List (String × SymbolicModule)) (acc : ModuleMap),
    (∀ p ∈ l, symSnapshotSafe p.2) →
    List.foldlM decodeByNameEntry acc
      (l.map fun p => (p.1, amtToInt t, encodeSymbolicModule p.2)) =
    some (List.foldl
      (fun a p => a.set_by_name t (insertByName (a.by_name t) p.1 p.2)) acc l) := by
  intro l
  induction l with
  | nil => intro acc _; rfl
  | cons p rest ih =>
    intro acc hsafe
    obtain ⟨name, s⟩ := p
    rw [List.map_cons, List.foldlM_cons,
      decodeByNameEntry_encode acc t name s (hsafe _ (List.mem_cons_self _ _))]
    simpa using ih _ (fun q hq => hsafe q (List.mem_cons_of_mem _ hq))

/-- Inserting a fresh key appends the binding. -/
theorem insertByName_fresh : ∀ (l : List (String × SymbolicModule)) (k : String)
    (v : SymbolicModule), lookupByName l k = none →
    insertByName l k v = l ++ [(k, v)] := by
  intro l k v
  induction l with
  | nil => intro _; rfl
  | cons p rest ih =>
    intro h
    obtain ⟨k0, v0⟩ := p
    by_cases hk : k0 = k
    · simp [lookupByName, hk] at h
    · simp only [lookupByName, if_neg hk] at h
      simp [insertByName, hk, ih h]

/-- Lookup skips a prefix in which the key is absent. -/
theorem lookupByName_append_of_none : ∀ (l1 l2 : List (String × SymbolicModule))
    (k : String), lookupByName l1 k = none →
    lookupByName (l1 ++ l2) k = lookupByName l2 k := by
  intro l1 l2 k
  induction l1 with
  | nil => intro _; rfl
  | cons p rest ih =>
    intro h
    obtain ⟨k0, v0⟩ := p
    by_cases hk : k0 = k
    · simp [lookupByName, hk] at h
    · simp only [lookupByName, if_neg hk] at h
      simp [lookupByName, if_neg hk, ih h]

/-- Writing a partition with its own content is the identity. -/
theorem set_by_name_self (m : ModuleMap) (t : AssertedModuleType) :
    m.set_by_name t (m.by_name t) = m := by
  cases t <;> rfl

/-- The second write to the same partition wins. -/
theorem set_by_name_set_by_name (m : ModuleMap) (t : AssertedModuleType)
    (v w : List (String × SymbolicModule)) :
    (m.set_by_name t v).set_by_name t w = m.set_by_name t w := by
  cases t <;> rfl

/-- Reading back the partition just written. -/
theorem set_by_name_by_name_self (m : ModuleMap) (t : AssertedModuleType)
    (v : List (String × SymbolicModule)) : (m.set_by_name t v).by_name t = v := by
  cases t <;> rfl

/-- The pure insert fold over fresh, pairwise distinct keys appends the
whole list to the partition. -/
theorem foldl_insert_partition (t : AssertedModuleType) :
    ∀ (l : List (String × SymbolicModule)) (acc : ModuleMap),
    (∀ k ∈ l.map Prod.fst, lookupByName (acc.by_name t) k = none) →
    (l.map Prod.fst).Nodup →
    List.foldl (fun a p => a.set_by_name t (insertByName (a.by_name t) p.1 p.2)) acc l
      = acc.set_by_name t (acc.by_name t ++ l) := by
  intro l
  induction l with
  | nil => intro acc _ _; simp [set_by_name_self]
  | cons p rest ih =>
    intro acc hfresh hnodup
    obtain ⟨k, v⟩ := p
    have hkfresh : lookupByName (acc.by_name t) k = none := hfresh k (by simp)
    rw [List.foldl_cons, insertByName_fresh _ _ _ hkfresh]
    rw [ih (acc.set_by_name t (acc.by_name t ++ [(k, v)]))]
    · rw [set_by_name_set_by_name, set_by_name_by_name_self]
      simp
    · intro k' hk'
      rw [set_by_name_by_name_self]
      have hne : ¬k = k' := by
        simp only [List.map_cons, List.nodup_cons] at hnodup
        exact fun hh => hnodup.1 (hh ▸ hk')
      rw [lookupByName_append_of_none _ _ _ (hfresh k' (by simp [hk']))]
      simp [lookupByName, hne]
    · simp only [List.map_cons, List.nodup_cons] at hnodup
      exact hnodup.2

/-- C1 counterexample: a registry built by the public operations whose
alias target is not ASCII does not survive the round trip: the target is
serialized through a one-byte (Latin-1) engine string over its UTF-8
bytes, so decoding yields a different alias target. -/
theorem c1_counterexample :
    exC1.update_with_snapshotted_data exC1.serialize_for_snapshotting ≠ some exC1 ∧
    (exC1.update_with_snapshotted_data exC1.serialize_for_snapshotting).map
        (fun x => x.by_name_js) = some [("a", SymbolicModule.alias "Ã©")] ∧
    exC1.by_name_js = [("a", SymbolicModule.alias "é")] := by
  refine ⟨?_, by decide, by decide⟩
  intro h
  have h2 := congrArg (Option.map fun x => x.by_name_js) h
  have h3 : (exC1.update_with_snapshotted_data
      exC1.serialize_for_snapshotting).map (fun x => x.by_name_js)
      = some [("a", SymbolicModule.alias "Ã©")] := by decide
  rw [h3] at h2
  exact absurd h2 (by decide)

/-- C1 amended: the snapshot round-trip law — decoding the serialized
payload together with the handle list yields the same registry (counter,
info sequence, partitions, handles) — holds for every registry whose
module ids fit the 32-bit signed casts of the format and whose request
specifiers and alias targets are ASCII; the one-byte serialization of
those strings makes the ASCII restriction necessary, and the association
lists modelling the two HashMaps carry their pairwise-distinct-keys
invariant. -/
theorem c1_snapshot_roundtrip :
    ∀ m : ModuleMap,
    keysNodup m.by_name_js → keysNodup m.by_name_json →
    (∀ i ∈ m.info, i.id < 2147483648) →
    (∀ i ∈ m.info, ∀ r ∈ i.requests, asciiStr r.specifier = true) →
    (∀ p ∈ m.by_name_js, symSnapshotSafe p.2) →
    (∀ p ∈ m.by_name_json, symSnapshotSafe p.2) →
    m.update_with_snapshotted_data m.serialize_for_snapshotting = some m := by
  intro m hnjs hnjson hids hreqs hsjs hsjson
  have hinfo := mapM_decodeInfo_encode m.info hids hreqs
  simp only [ModuleMap.update_with_snapshotted_data, ModuleMap.serialize_for_snapshotting,
    ModuleMap.collect_modules, List.map_append, List.map_map, hinfo,
    Option.bind_eq_bind, Option.some_bind, List.foldlM_append]
  rw [show ((fun x : AssertedModuleType × String × SymbolicModule =>
      (x.2.1, amtToInt x.1, encodeSymbolicModule x.2.2)) ∘
      (fun p : String × SymbolicModule =>
        (AssertedModuleType.javaScriptOrWasm, p.1, p.2))) =
      (fun p : String × SymbolicModule =>
        (p.1, amtToInt AssertedModuleType.javaScriptOrWasm,
          encodeSymbolicModule p.2)) from rfl]
  rw [show ((fun x : AssertedModuleType × String × SymbolicModule =>
      (x.2.1, amtToInt x.1, encodeSymbolicModule x.2.2)) ∘
      (fun p : String × SymbolicModule => (AssertedModuleType.json, p.1, p.2))) =
      (fun p : String × SymbolicModule =>
        (p.1, amtToInt AssertedModuleType.json, encodeSymbolicModule p.2)) from rfl]
  rw [foldlM_decode_partition AssertedModuleType.javaScriptOrWasm m.by_name_js _ hsjs]
  simp only [Option.bind_eq_bind, Option.some_bind]
  have hjs := foldl_insert_partition AssertedModuleType.javaScriptOrWasm m.by_name_js
    { m with
      next_load_id := m.next_load_id
      info := m.info
      by_name_js := []
      by_name_json := [] }
    (fun k _ => rfl) hnjs
  simp only [ModuleMap.set_by_name, ModuleMap.by_name, List.nil_append] at hjs
  simp only [ModuleMap.set_by_name, ModuleMap.by_name, List.nil_append]
  rw [hjs]
  rw [foldlM_decode_partition AssertedModuleType.json m.by_name_json _ hsjson]
  simp only [Option.bind_eq_bind, Option.some_bind]
  have hjson := foldl_insert_partition AssertedModuleType.json m.by_name_json
    { m with by_name_json := [] }
    (fun k _ => rfl) hnjson
  simp only [ModuleMap.set_by_name, ModuleMap.by_name, List.nil_append] at hjson
  simp only [ModuleMap.set_by_name, ModuleMap.by_name, List.nil_append]
  rw [hjson]
  rfl

/-- Witness for C1: the round-trip law applied to a concrete registry
built by the public operations, with one concrete module and one
alias. -/
theorem c1_snapshot_roundtrip_witness :
    exC1W.update_with_snapshotted_data exC1W.serialize_for_snapshotting = some exC1W :=
  c1_snapshot_roundtrip exC1W (by decide) (by decide) (by decide) (by decide)
    (by decide) (by decide)

end DenoCore
